import Mathlib

/-!
Shallow embedding of `src/simulations/double_pendulum.py` (the physim
double-pendulum core): the ODE derivative, the energy function, the
energy-drift guard, the Cartesian projection of the two bobs, and the
trail-windowing loop of `make_plot`.  Machine reals are modelled by `ℝ`;
Python ints by `ℕ`/`ℤ`.
-/

open Real

namespace Physim

noncomputable section

/-- Physical parameters of the double pendulum: rod lengths `L1, L2`,
bob masses `m1, m2`, gravitational acceleration `g`.  The source binds
them as module-level globals (`L1, L2 = 1, 1`; `m1, m2 = 1, 1`;
`g = 9.81`); here they are an explicit record so the functions that read
them can be stated for all values. -/
structure Params where
  L1 : ℝ
  L2 : ℝ
  m1 : ℝ
  m2 : ℝ
  g : ℝ

/-- The generalized state `y = (theta1, z1, theta2, z2)` unpacked by
`derive` and `total_energy`: angles and angular velocities of the two
rods. -/
structure State where
  theta1 : ℝ
  omega1 : ℝ
  theta2 : ℝ
  omega2 : ℝ

/-- The module-level parameter values of the source:
`L1, L2 = 1, 1`, `m1, m2 = 1, 1`, `g = 9.81`. -/
def srcParams : Params := ⟨1, 1, 1, 1, 9.81⟩

/-- The shared denominator `m1 + m2 * s ** 2` (with
`s = np.sin(theta_1 - theta_2)`) appearing in both `z1dot` and `z2dot`
of `derive`. -/
def denom (p : Params) (theta1 theta2 : ℝ) : ℝ :=
  p.m1 + p.m2 * Real.sin (theta1 - theta2) ^ 2

/-- `derive(y, t, L1, L2, m1, m2)` from the source: the first
derivatives of `y = theta1, z1, theta2, z2`.  The time argument `t` is
unused in the source body and omitted.  The two divisions are written
`/ L1 / (m1 + m2 * s ** 2)` and `/ L2 / (m1 + m2 * s ** 2)` exactly as
in the source. -/
def derive (p : Params) (y : State) : ℝ × ℝ × ℝ × ℝ :=
  let c := Real.cos (y.theta1 - y.theta2)
  let s := Real.sin (y.theta1 - y.theta2)
  (y.omega1,
   (p.m2 * p.g * Real.sin y.theta2 * c
      - p.m2 * s * (p.L1 * y.omega1 ^ 2 * c + p.L2 * y.omega2 ^ 2)
      - (p.m1 + p.m2) * p.g * Real.sin y.theta1) / p.L1 / denom p y.theta1 y.theta2,
   y.omega2,
   ((p.m1 + p.m2) * (p.L1 * y.omega1 ^ 2 * s - p.g * Real.sin y.theta2
        + p.g * Real.sin y.theta1 * c)
      + p.m2 * p.L2 * y.omega2 ^ 2 * s * c) / p.L2 / denom p y.theta1 y.theta2)

/-- The `potential` local of `total_energy`:
`-(m1 + m2) * L1 * g * np.cos(th1) - m2 * L2 * g * np.cos(th2)`. -/
def potentialE (p : Params) (y : State) : ℝ :=
  -(p.m1 + p.m2) * p.L1 * p.g * Real.cos y.theta1
    - p.m2 * p.L2 * p.g * Real.cos y.theta2

/-- The `kinetic` local of `total_energy`:
`0.5*m1*(L1*th1d)**2 + 0.5*m2*((L1*th1d)**2 + (L2*th2d)**2 + 2*L1*L2*th1d*th2d*np.cos(th1-th2))`. -/
def kineticE (p : Params) (y : State) : ℝ :=
  0.5 * p.m1 * (p.L1 * y.omega1) ^ 2
    + 0.5 * p.m2 * ((p.L1 * y.omega1) ^ 2 + (p.L2 * y.omega2) ^ 2
        + 2 * p.L1 * p.L2 * y.omega1 * y.omega2 * Real.cos (y.theta1 - y.theta2))

/-- `total_energy(y)` from the source: `potential + kinetic` applied to
one state (the source applies it element-wise over a trajectory array;
here the trajectory case is a `List.map` of this per-sample function). -/
def total_energy (p : Params) (y : State) : ℝ :=
  potentialE p y + kineticE p y

/-- The energy-drift tolerance `EDRIFT = 0.05` of the source. -/
def EDRIFT : ℝ := 0.05

/-- `np.sum(np.abs(total_energy(y) - E))` of the source guard, with
`E = total_energy(y0)`: the sum over all trajectory samples of the
absolute deviation of the sample's energy from the initial state's
energy.  (`np.max` of this already-scalar value is the identity.) -/
def energyDrift (p : Params) (y0 : State) (ys : List State) : ℝ :=
  ((ys.map fun y => total_energy p y).map fun e => |e - total_energy p y0|).sum

/-- The module-level guard condition: the run is rejected (the `sys.exit`
branch is taken) exactly when
`np.max(np.sum(np.abs(total_energy(y) - E))) > EDRIFT`. -/
def energyGuardFails (p : Params) (y0 : State) (ys : List State) : Prop :=
  energyDrift p y0 ys > EDRIFT

instance (p : Params) (y0 : State) (ys : List State) :
    Decidable (energyGuardFails p y0 ys) := by
  unfold energyGuardFails; infer_instance

/-- The `sys.exit` message of the source:
`'Maximum energy drift of {} exceeded.'.format(EDRIFT)` — the formatted
value is the tolerance constant `EDRIFT = 0.05`. -/
def exitMessage : String := "Maximum energy drift of 0.05 exceeded."

/-- x-y position of bob 1 for one sample:
`x1 = L1 * np.sin(theta_1)`, `y1 = -L1 * np.cos(theta_1)`. -/
def bob1Point (p : Params) (y : State) : ℝ × ℝ :=
  (p.L1 * Real.sin y.theta1, -p.L1 * Real.cos y.theta1)

/-- x-y position of bob 2 for one sample:
`x2 = x1 + L2 * np.sin(theta_2)`, `y2 = y1 - L2 * np.cos(theta_2)`. -/
def bob2Point (p : Params) (y : State) : ℝ × ℝ :=
  ((bob1Point p y).1 + p.L2 * Real.sin y.theta2,
   (bob1Point p y).2 - p.L2 * Real.cos y.theta2)

/-- The whole-trajectory `x1`/`y1` arrays of the source, as one list of
pairs. -/
def projectBob1 (p : Params) (ys : List State) : List (ℝ × ℝ) :=
  ys.map (bob1Point p)

/-- The whole-trajectory `x2`/`y2` arrays of the source, as one list of
pairs. -/
def projectBob2 (p : Params) (ys : List State) : List (ℝ × ℝ) :=
  ys.map (bob2Point p)

/-- The run outcome at the module level: if the drift exceeds `EDRIFT`
the process stops via `sys.exit(message)` — exit status `1` with the
message — before the Cartesian arrays are computed; otherwise the
Cartesian bob arrays are produced for the renderer. -/
def runPipeline (p : Params) (y0 : State) (ys : List State) :
    Except (ℕ × String) (List (ℝ × ℝ) × List (ℝ × ℝ)) :=
  if energyGuardFails p y0 ys then
    Except.error (1, exitMessage)
  else
    Except.ok (projectBob1 p ys, projectBob2 p ys)

/-- `ns = 20`: the number of trail segments in `make_plot`. -/
def ns : ℕ := 20

/-- `max_trail = int(trail_secs / dt)` with `trail_secs = 0.5`,
`dt = 0.01`: 50 history samples. -/
def max_trail : ℕ := 50

/-- `s = max_trail // ns` (integer division) in `make_plot`. -/
def sStep : ℕ := max_trail / ns

/-- `imin = i - (ns - j) * s` for frame `i` and segment index `j`,
computed in the integers as in Python (it can be negative). -/
def iminAt (i j : ℕ) : ℤ :=
  (i : ℤ) - ((ns : ℤ) - (j : ℤ)) * (sStep : ℤ)

/-- One fading trail segment handed to the renderer: the plotted slice
of the `x2`/`y2` history and its alpha value. -/
structure TrailSegment where
  points : List (ℝ × ℝ)
  alpha : ℝ

/-- The Python slice `xs[a:b]` of a list (clamped to the list bounds,
as numpy/Python slicing is for `0 ≤ a ≤ b`). -/
def slice (xs : List (ℝ × ℝ)) (a b : ℕ) : List (ℝ × ℝ) :=
  (xs.drop a).take (b - a)

/-- The trail loop of `make_plot`: for `j in range(ns)`, compute
`imin = i - (ns-j)*s`; `continue` (emit nothing) when `imin < 0`;
otherwise plot `x2[imin:imax], y2[imin:imax]` with `imax = imin + s + 1`
and `alpha = (j/ns)**2`. -/
def trailSegments (bob2 : List (ℝ × ℝ)) (i : ℕ) : List TrailSegment :=
  (List.range ns).filterMap fun j =>
    let imin := iminAt i j
    if imin < 0 then none
    else some ⟨slice bob2 imin.toNat (imin.toNat + sStep + 1),
               ((j : ℝ) / (ns : ℝ)) ^ 2⟩

/-- The state side of the co-permutation of the spec's symmetry claim:
swap `(theta1, omega1)` with `(theta2, omega2)`. -/
def swapState (y : State) : State := ⟨y.theta2, y.omega2, y.theta1, y.omega1⟩

/-- The parameter side of the co-permutation of the spec's symmetry
claim: swap `(L1, m1)` with `(L2, m2)`. -/
def swapParams (p : Params) : Params := ⟨p.L2, p.L1, p.m2, p.m1, p.g⟩

/-- A state at rest pointing straight down: both angles and both
angular velocities zero. -/
def restZero : State := ⟨0, 0, 0, 0⟩

/-- A hanging state whose first rod spins with angular velocity `w`:
`(0, w, 0, 0)`.  Its energy exceeds the energy of `restZero` by exactly
`w ^ 2` under the source parameters, which gives concrete trajectories
with known drift. -/
def spinState (w : ℝ) : State := ⟨0, w, 0, 0⟩

end

end Physim

namespace Physim

/-! ### Helper lemmas -/

/-- A `filterMap` whose function is an if-then-some-else-none is a
`filter` followed by a `map`. -/
theorem filterMap_ite_eq_filter_map {α β : Type} (p : α → Prop) [DecidablePred p]
    (f : α → β) (l : List α) :
    (l.filterMap fun a => if p a then some (f a) else none) =
      (l.filter fun a => decide (p a)).map f := by
  induction l with
  | nil => rfl
  | cons a l ih =>
    by_cases h : p a <;> simp [List.filterMap_cons, List.filter_cons, h, ih]

/-- The trail loop equals the filter-then-map form: keep exactly the
segment indices `j` with `imin ≥ 0` and build each kept segment from its
slice of `bob2` and its squared alpha. -/
theorem trailSegments_eq (bob2 : List (ℝ × ℝ)) (i : ℕ) :
    trailSegments bob2 i =
      ((List.range ns).filter fun j => decide (0 ≤ iminAt i j)).map fun j =>
        ⟨slice bob2 (iminAt i j).toNat ((iminAt i j).toNat + sStep + 1),
         ((j : ℝ) / (ns : ℝ)) ^ 2⟩ := by
  unfold trailSegments
  rw [show (fun j => if iminAt i j < 0 then none else
        some (TrailSegment.mk (slice bob2 (iminAt i j).toNat ((iminAt i j).toNat + sStep + 1))
          (((j : ℝ) / (ns : ℝ)) ^ 2))) =
      (fun j => if 0 ≤ iminAt i j then
        some (TrailSegment.mk (slice bob2 (iminAt i j).toNat ((iminAt i j).toNat + sStep + 1))
          (((j : ℝ) / (ns : ℝ)) ^ 2)) else none) from ?_]
  · exact filterMap_ite_eq_filter_map _ _ _
  · funext j
    by_cases h : iminAt i j < 0
    · simp [h, not_le.mpr h]
    · simp [h, not_lt.mp h]

/-- Once the frame index reaches `ns * s`, every segment index `j` has
`imin ≥ 0`, so the loop emits all `ns` segments. -/
theorem trailCount_full (bob2 : List (ℝ × ℝ)) (i : ℕ) (h : ns * sStep ≤ i) :
    (trailSegments bob2 i).length = ns := by
  rw [trailSegments_eq, List.length_map]
  rw [List.filter_eq_self.mpr, List.length_range]
  intro j hj
  rw [List.mem_range] at hj
  simp only [decide_eq_true_eq]
  unfold iminAt
  have hmul : ((ns : ℤ) - (j : ℤ)) * (sStep : ℤ) ≤ (ns : ℤ) * (sStep : ℤ) := by
    apply mul_le_mul_of_nonneg_right _ (by positivity)
    omega
  have h' : ((ns : ℤ) * (sStep : ℤ)) ≤ (i : ℤ) := by exact_mod_cast h
  omega

/-- Before the frame index reaches `ns * s`, segment index `j = 0` has
`imin < 0` and is skipped, so strictly fewer than `ns` segments are
emitted. -/
theorem trailCount_below (bob2 : List (ℝ × ℝ)) (i : ℕ) (h : i < ns * sStep) :
    (trailSegments bob2 i).length < ns := by
  rw [trailSegments_eq, List.length_map]
  have h0 : ¬ (decide (0 ≤ iminAt i 0) = true) := by
    simp only [decide_eq_true_eq, not_le]
    unfold iminAt
    have h' : (i : ℤ) < (ns : ℤ) * (sStep : ℤ) := by exact_mod_cast h
    simp only [Nat.cast_zero, sub_zero]
    omega
  calc ((List.range ns).filter fun j => decide (0 ≤ iminAt i j)).length
      < (List.range ns).length := by
        apply List.length_filter_lt_length_iff_exists.mpr
        exact ⟨0, List.mem_range.mpr (by norm_num [ns]), h0⟩
    _ = ns := List.length_range ns

/-- Under the source parameters, spinning the first rod adds exactly
`w ^ 2` of kinetic energy to the hanging rest state. -/
theorem energy_spinState (w : ℝ) :
    total_energy srcParams (spinState w) = total_energy srcParams restZero + w ^ 2 := by
  simp only [total_energy, potentialE, kineticE, srcParams, spinState, restZero]
  norm_num
  ring

/-- The drift of the one-sample trajectory `[spinState w]` relative to
the initial state `restZero` is exactly `w ^ 2`. -/
theorem drift_spin_one (w : ℝ) :
    energyDrift srcParams restZero [spinState w] = w ^ 2 := by
  unfold energyDrift
  simp only [List.map_cons, List.map_nil, List.sum_cons, List.sum_nil]
  rw [energy_spinState, add_sub_cancel_left, abs_of_nonneg (sq_nonneg w)]
  ring

/-- The drift of the two-sample trajectory `[spinState w, spinState w]`
relative to the initial state `restZero` is exactly `2 * w ^ 2`. -/
theorem drift_spin_pair (w : ℝ) :
    energyDrift srcParams restZero [spinState w, spinState w] = 2 * w ^ 2 := by
  unfold energyDrift
  simp only [List.map_cons, List.map_nil, List.sum_cons, List.sum_nil]
  rw [energy_spinState, add_sub_cancel_left, abs_of_nonneg (sq_nonneg w)]
  ring

/-- The sum of a mapped list equals the sum over its index type. -/
theorem sum_map_eq_fin_sum {α : Type} (f : α → ℝ) :
    ∀ l : List α, (l.map f).sum = ∑ i : Fin l.length, f (l.get i)
  | [] => by simp
  | a :: l => by
    simp only [List.map_cons, List.sum_cons, List.length_cons, Fin.sum_univ_succ,
      List.get]
    rw [sum_map_eq_fin_sum f l]

end Physim

namespace Physim

/-! ### Claim theorems -/

/-- C1: for every trajectory, the energy guard computes `E0` as the
energy of the initial state and the drift as the sum over all samples of
`|EnergyTrace[i] - E0|`, and rejects the run exactly when this single
aggregated scalar exceeds `EDRIFT`; moreover the aggregate really is a
sum and not a per-sample maximum: there is a run every single sample of
which deviates by at most `EDRIFT`, yet the guard rejects it. -/
theorem C1_energy_guard_sum_semantics :
    (∀ (p : Params) (y0 : State) (ys : List State),
      energyGuardFails p y0 ys ↔
        (∑ i : Fin ys.length, |total_energy p (ys.get i) - total_energy p y0|) > EDRIFT) ∧
    (∃ (p : Params) (y0 : State) (ys : List State),
      energyGuardFails p y0 ys ∧
        ∀ i : Fin ys.length, |total_energy p (ys.get i) - total_energy p y0| ≤ EDRIFT) := by
  constructor
  · intro p y0 ys
    unfold energyGuardFails energyDrift
    rw [List.map_map, sum_map_eq_fin_sum]
    rfl
  · refine ⟨srcParams, restZero, [spinState 0.2, spinState 0.2], ?_, ?_⟩
    · unfold energyGuardFails
      rw [drift_spin_pair]
      norm_num [EDRIFT]
    · intro i
      fin_cases i <;>
        · show |total_energy srcParams (spinState 0.2) - total_energy srcParams restZero| ≤ EDRIFT
          rw [energy_spinState, add_sub_cancel_left, abs_of_nonneg (by positivity)]
          norm_num [EDRIFT]

/-- C2 counterexample: the claim says every frame index `i < max_trail`
yields strictly fewer than `ns` segments, but at frame `i = 40` (which
is below `max_trail = 50`) the trail loop already emits all `ns = 20`
segments. -/
theorem C2_counterexample :
    40 < max_trail ∧ ¬ (trailSegments ([] : List (ℝ × ℝ)) 40).length < ns :=
  ⟨by norm_num [max_trail],
   by rw [trailCount_full ([] : List (ℝ × ℝ)) 40 (by norm_num [ns, sStep, max_trail])]; omega⟩

/-- C2 (amended): the true boundary is `ns * s = 40`, not
`max_trail = 50`: for `i < ns * s` strictly fewer than `ns` segments are
emitted, and for `i ≥ ns * s` — in particular for every
`i ≥ max_trail` — exactly `ns` segments are emitted; at frame `i = 49`
segment 0 has `imin = 9`. -/
theorem C2_segment_count_amended (bob2 : List (ℝ × ℝ)) (i : ℕ) :
    (i < ns * sStep → (trailSegments bob2 i).length < ns) ∧
    (ns * sStep ≤ i → (trailSegments bob2 i).length = ns) ∧
    (max_trail ≤ i → (trailSegments bob2 i).length = ns) ∧
    iminAt 49 0 = 9 := by
  refine ⟨trailCount_below bob2 i, trailCount_full bob2 i, ?_, by decide⟩
  intro h
  have h1 : ns * sStep = 40 := by decide
  have h2 : max_trail = 50 := rfl
  exact trailCount_full bob2 i (by omega)

/-- C2 witness: at frame `i = 50 ≥ max_trail` the amended theorem gives
exactly `ns` emitted segments. -/
theorem C2_segment_count_witness :
    max_trail ≤ 50 ∧ (trailSegments ([] : List (ℝ × ℝ)) 50).length = ns :=
  ⟨by norm_num [max_trail],
   (C2_segment_count_amended ([] : List (ℝ × ℝ)) 50).2.2.1 (by norm_num [max_trail])⟩

/-- C3 counterexample: the claim says the failure message reports the
measured drift value, but two failing runs with different drifts
(`0.09` and `0.16`) terminate with the identical message, so the
message cannot report the measured drift (it only reports the
tolerance). -/
theorem C3_counterexample :
    energyDrift srcParams restZero [spinState 0.3] ≠
      energyDrift srcParams restZero [spinState 0.4] ∧
    runPipeline srcParams restZero [spinState 0.3] = Except.error (1, exitMessage) ∧
    runPipeline srcParams restZero [spinState 0.4] = Except.error (1, exitMessage) := by
  have h3 : energyGuardFails srcParams restZero [spinState 0.3] := by
    unfold energyGuardFails; rw [drift_spin_one]; norm_num [EDRIFT]
  have h4 : energyGuardFails srcParams restZero [spinState 0.4] := by
    unfold energyGuardFails; rw [drift_spin_one]; norm_num [EDRIFT]
  refine ⟨?_, by simp [runPipeline, h3], by simp [runPipeline, h4]⟩
  rw [drift_spin_one, drift_spin_one]
  norm_num

/-- C3 (amended): when the energy guard fails, the run terminates with
the non-zero exit status 1 and a message reporting the configured
tolerance (`EDRIFT = 0.05`; the measured drift value is not part of the
message), and no trajectory — neither Cartesian array — is exposed to
the renderer. -/
theorem C3_guard_failure_amended (p : Params) (y0 : State) (ys : List State)
    (h : energyGuardFails p y0 ys) :
    runPipeline p y0 ys = Except.error (1, exitMessage) ∧
    (∀ r, runPipeline p y0 ys ≠ Except.ok r) ∧
    exitMessage = "Maximum energy drift of 0.05 exceeded." := by
  refine ⟨by simp [runPipeline, h], ?_, rfl⟩
  intro r
  simp [runPipeline, h]

/-- C3 witness: the one-sample run `[spinState 0.3]` from `restZero` has
drift `0.09 > EDRIFT`, and the amended theorem applies to it. -/
theorem C3_guard_failure_witness :
    energyGuardFails srcParams restZero [spinState 0.3] ∧
    runPipeline srcParams restZero [spinState 0.3] = Except.error (1, exitMessage) := by
  have h : energyGuardFails srcParams restZero [spinState 0.3] := by
    unfold energyGuardFails; rw [drift_spin_one]; norm_num [EDRIFT]
  exact ⟨h, (C3_guard_failure_amended srcParams restZero [spinState 0.3] h).1⟩

/-- C4: for every frame index, the trail loop runs `j` from `0` to
`ns - 1`, skips segment `j` entirely when `imin = i - (ns-j)*s < 0`, and
otherwise emits the segment with points `bob2[imin : imin+s+1]` (slice
clamped to bounds) and alpha `(j/ns)^2`; and the alpha value is strictly
increasing in `j`. -/
theorem C4_trail_segment_shape (bob2 : List (ℝ × ℝ)) (i : ℕ) :
    trailSegments bob2 i =
      ((List.range ns).filter fun j => decide (0 ≤ iminAt i j)).map (fun j =>
        ⟨slice bob2 (iminAt i j).toNat ((iminAt i j).toNat + sStep + 1),
         ((j : ℝ) / (ns : ℝ)) ^ 2⟩) ∧
    (∀ j1 j2 : ℕ, j1 < j2 → j2 < ns →
      ((j1 : ℝ) / (ns : ℝ)) ^ 2 < ((j2 : ℝ) / (ns : ℝ)) ^ 2) := by
  refine ⟨trailSegments_eq bob2 i, ?_⟩
  intro j1 j2 h12 _
  have hc : (j1 : ℝ) < (j2 : ℝ) := by exact_mod_cast h12
  have hns : (0 : ℝ) < (ns : ℝ) := by norm_num [ns]
  have hdiv : (j1 : ℝ) / (ns : ℝ) < (j2 : ℝ) / (ns : ℝ) :=
    (div_lt_div_iff_of_pos_right hns).mpr hc
  exact pow_lt_pow_left₀ hdiv (by positivity) (by norm_num)

/-- C4 witness: at `j1 = 1 < j2 = 2 < ns` the alpha easing is strictly
increasing. -/
theorem C4_trail_segment_shape_witness :
    (1 : ℕ) < 2 ∧ (2 : ℕ) < ns ∧
      ((1 : ℝ) / (ns : ℝ)) ^ 2 < ((2 : ℝ) / (ns : ℝ)) ^ 2 := by
  refine ⟨by norm_num, by norm_num [ns], ?_⟩
  have h := (C4_trail_segment_shape ([] : List (ℝ × ℝ)) 0).2 1 2 (by norm_num) (by norm_num [ns])
  exact_mod_cast h

end Physim

namespace Physim

/-- C5: for every state and parameters, `derive` returns exactly
`(omega1, domega1, omega2, domega2)` with the claimed closed-form
accelerations over the single denominators `L1*(m1 + m2*s^2)` and
`L2*(m1 + m2*s^2)`, where `c = cos(theta1-theta2)` and
`s = sin(theta1-theta2)`. -/
theorem C5_derive_formula (p : Params) (y : State) :
    derive p y =
      (y.omega1,
       (p.m2 * p.g * Real.sin y.theta2 * Real.cos (y.theta1 - y.theta2)
          - p.m2 * Real.sin (y.theta1 - y.theta2) *
              (p.L1 * y.omega1 ^ 2 * Real.cos (y.theta1 - y.theta2) + p.L2 * y.omega2 ^ 2)
          - (p.m1 + p.m2) * p.g * Real.sin y.theta1) /
         (p.L1 * (p.m1 + p.m2 * Real.sin (y.theta1 - y.theta2) ^ 2)),
       y.omega2,
       ((p.m1 + p.m2) * (p.L1 * y.omega1 ^ 2 * Real.sin (y.theta1 - y.theta2)
            - p.g * Real.sin y.theta2
            + p.g * Real.sin y.theta1 * Real.cos (y.theta1 - y.theta2))
          + p.m2 * p.L2 * y.omega2 ^ 2 * Real.sin (y.theta1 - y.theta2) *
              Real.cos (y.theta1 - y.theta2)) /
         (p.L2 * (p.m1 + p.m2 * Real.sin (y.theta1 - y.theta2) ^ 2))) := by
  simp only [derive, denom, div_div]

/-- C6: for every state, `total_energy` is potential plus kinetic with
the claimed closed forms, and for `omega1 = omega2 = 0` the kinetic
component is exactly `0`. -/
theorem C6_total_energy_formula (p : Params) (y : State) :
    total_energy p y =
      (-(p.m1 + p.m2) * p.L1 * p.g * Real.cos y.theta1
          - p.m2 * p.L2 * p.g * Real.cos y.theta2)
        + (0.5 * p.m1 * (p.L1 * y.omega1) ^ 2
            + 0.5 * p.m2 * ((p.L1 * y.omega1) ^ 2 + (p.L2 * y.omega2) ^ 2
                + 2 * p.L1 * p.L2 * y.omega1 * y.omega2 * Real.cos (y.theta1 - y.theta2))) ∧
    (∀ theta1 theta2 : ℝ, kineticE p ⟨theta1, 0, theta2, 0⟩ = 0) := by
  refine ⟨rfl, ?_⟩
  intro theta1 theta2
  unfold kineticE
  ring

/-- C7 counterexample: simultaneously swapping `(theta1, omega1)` with
`(theta2, omega2)` and `(L1, m1)` with `(L2, m2)` changes the output of
`total_energy`: at `L1 = L2 = 1`, `m1 = 1`, `m2 = 2`, `g = 9.81`,
`theta1 = 0`, `theta2 = π` and both bobs at rest, the original energy is
`-9.81` while the swapped one is `19.62`. -/
theorem C7_counterexample :
    total_energy (swapParams ⟨1, 1, 1, 2, 9.81⟩) (swapState ⟨0, 0, Real.pi, 0⟩) ≠
      total_energy ⟨1, 1, 1, 2, 9.81⟩ ⟨0, 0, Real.pi, 0⟩ := by
  simp only [total_energy, potentialE, kineticE, swapParams, swapState,
    Real.cos_pi, Real.cos_zero]
  norm_num

/-- C7 (amended): the co-permutation does not preserve `total_energy`
in general; it does under the extra symmetry `m1 = m2`, `L1 = L2`,
`cos theta1 = cos theta2` and `omega1^2 = omega2^2` (in particular
whenever the swap maps the configuration to itself). -/
theorem C7_swap_invariance_amended (p : Params) (y : State)
    (hm : p.m1 = p.m2) (hL : p.L1 = p.L2)
    (hc : Real.cos y.theta1 = Real.cos y.theta2)
    (hw : y.omega1 ^ 2 = y.omega2 ^ 2) :
    total_energy (swapParams p) (swapState y) = total_energy p y := by
  have hcos : Real.cos (y.theta2 - y.theta1) = Real.cos (y.theta1 - y.theta2) := by
    rw [← Real.cos_neg]; ring_nf
  simp only [total_energy, potentialE, kineticE, swapParams, swapState, hcos]
  rw [hm, hL, hc]
  linear_combination (-0.5 * p.m2 * p.L2 ^ 2) * hw

/-- C7 witness: the source parameters are symmetric (`m1 = m2 = 1`,
`L1 = L2 = 1`) and `restZero` is a fixed point of the state swap, so the
amended invariance applies to them. -/
theorem C7_swap_invariance_witness :
    srcParams.m1 = srcParams.m2 ∧ srcParams.L1 = srcParams.L2 ∧
    Real.cos restZero.theta1 = Real.cos restZero.theta2 ∧
    restZero.omega1 ^ 2 = restZero.omega2 ^ 2 ∧
    total_energy (swapParams srcParams) (swapState restZero) =
      total_energy srcParams restZero :=
  ⟨rfl, rfl, rfl, rfl, C7_swap_invariance_amended srcParams restZero rfl rfl rfl rfl⟩

/-- C8: for every sample `i` of a trajectory,
`bob1[i] = (L1*sin(theta1[i]), -L1*cos(theta1[i]))` and
`bob2[i] = bob1[i] + (L2*sin(theta2[i]), -L2*cos(theta2[i]))`; and for
`theta1 = theta2 = 0` the projection gives `bob1 = (0, -L1)` and
`bob2 = (0, -L1-L2)`. -/
theorem C8_cartesian_projection (p : Params) (ys : List State) (i : ℕ) (y : State)
    (h : ys.get? i = some y) :
    (projectBob1 p ys).get? i =
      some (p.L1 * Real.sin y.theta1, -p.L1 * Real.cos y.theta1) ∧
    (projectBob2 p ys).get? i =
      some (bob1Point p y + (p.L2 * Real.sin y.theta2, -(p.L2 * Real.cos y.theta2))) ∧
    (∀ (q : Params) (w1 w2 : ℝ),
      bob1Point q ⟨0, w1, 0, w2⟩ = (0, -q.L1) ∧
      bob2Point q ⟨0, w1, 0, w2⟩ = (0, -q.L1 - q.L2)) := by
  refine ⟨?_, ?_, ?_⟩
  · rw [projectBob1, List.get?_map, h]
    rfl
  · rw [projectBob2, List.get?_map, h]
    simp only [Option.map_some', bob2Point, bob1Point, Prod.mk_add_mk, Prod.mk.injEq]
    ring_nf
  · intro q w1 w2
    constructor <;> simp [bob1Point, bob2Point, Real.sin_zero, Real.cos_zero]

/-- C8 witness: the one-sample trajectory `[restZero]` has its bob-1
projection at sample 0 equal to the claimed formula. -/
theorem C8_cartesian_projection_witness :
    ([restZero].get? 0 = some restZero) ∧
    (projectBob1 srcParams [restZero]).get? 0 =
      some (srcParams.L1 * Real.sin restZero.theta1,
            -srcParams.L1 * Real.cos restZero.theta1) :=
  ⟨rfl, (C8_cartesian_projection srcParams [restZero] 0 restZero rfl).1⟩

/-- C9: for every state and strictly positive masses, the shared
denominator `m1 + m2 * sin(theta1-theta2)^2` of `derive` is strictly
positive, so both divisions are by a non-zero quantity. -/
theorem C9_denominator_positive (p : Params) (theta1 theta2 : ℝ)
    (hm1 : 0 < p.m1) (hm2 : 0 < p.m2) :
    0 < denom p theta1 theta2 := by
  unfold denom
  have h : 0 ≤ p.m2 * Real.sin (theta1 - theta2) ^ 2 :=
    mul_nonneg hm2.le (sq_nonneg _)
  linarith

/-- C9 witness: the source masses `m1 = m2 = 1` are positive and the
denominator at angles `0, 0` is positive. -/
theorem C9_denominator_positive_witness :
    0 < srcParams.m1 ∧ 0 < srcParams.m2 ∧ 0 < denom srcParams 0 0 :=
  ⟨by norm_num [srcParams], by norm_num [srcParams],
   C9_denominator_positive srcParams 0 0 (by norm_num [srcParams]) (by norm_num [srcParams])⟩

/-- C10: consecutively emitted trail segments abut with exactly one
shared sample: `imin` of segment `j+1` is `imin_j + s`, the covered
index intervals intersect exactly in `{imin_j + s}`, and the point at
offset `s` of segment `j` equals the point at offset `0` of segment
`j+1` (both are `bob2[imin_j + s]`). -/
theorem C10_segments_abut (bob2 : List (ℝ × ℝ)) (i j : ℕ) (_hj : j + 1 < ns)
    (h0 : 0 ≤ iminAt i j) :
    iminAt i (j + 1) = iminAt i j + (sStep : ℤ) ∧
    Set.Icc (iminAt i j) (iminAt i j + (sStep : ℤ)) ∩
        Set.Icc (iminAt i (j + 1)) (iminAt i (j + 1) + (sStep : ℤ)) =
      {iminAt i j + (sStep : ℤ)} ∧
    (slice bob2 (iminAt i j).toNat ((iminAt i j).toNat + sStep + 1)).get? sStep =
      bob2.get? ((iminAt i j).toNat + sStep) ∧
    (slice bob2 (iminAt i (j + 1)).toNat ((iminAt i (j + 1)).toNat + sStep + 1)).get? 0 =
      bob2.get? ((iminAt i j).toNat + sStep) := by
  have hstep : iminAt i (j + 1) = iminAt i j + (sStep : ℤ) := by
    unfold iminAt
    push_cast
    ring
  have hs : (0 : ℤ) ≤ (sStep : ℤ) := by positivity
  refine ⟨hstep, ?_, ?_, ?_⟩
  · rw [hstep, Set.Icc_inter_Icc]
    rw [max_eq_right (by omega), min_eq_left (by omega), Set.Icc_self]
  · unfold slice
    have h1 : (iminAt i j).toNat + sStep + 1 - (iminAt i j).toNat = sStep + 1 := by omega
    rw [h1, List.get?_take (by omega), List.get?_drop]
  · unfold slice
    have h2 : (iminAt i (j + 1)).toNat = (iminAt i j).toNat + sStep := by
      rw [hstep]; omega
    have h1 : (iminAt i (j + 1)).toNat + sStep + 1 - (iminAt i (j + 1)).toNat = sStep + 1 := by
      omega
    rw [h1, List.get?_take (by omega), List.get?_drop, h2, Nat.add_zero]

/-- C10 witness: at frame `i = 45`, segments `j = 0` and `j = 1` are
both emitted (`imin = 5` and `7`) and the abutting relation holds. -/
theorem C10_segments_abut_witness :
    (0 + 1 < ns) ∧ (0 ≤ iminAt 45 0) ∧
      iminAt 45 (0 + 1) = iminAt 45 0 + (sStep : ℤ) :=
  ⟨by decide, by decide,
   (C10_segments_abut ([] : List (ℝ × ℝ)) 45 0 (by decide) (by decide)).1⟩

end Physim
